import Mathlib

/-!
Shallow embedding of the timecamp-mcp-server repository.

Embedded sources:
- src/timecamp-api.ts : the TimeCampAPI client class (calculateDuration,
  formatDateForAPI, createTimeEntry, getTimeEntries, getTasks,
  updateTimeEntry, and the constructor token validation);
- the worker entry file : credential resolution inside app.mount.

Modelling conventions:
- JSON values are modelled by JValue; JavaScript objects are association
  lists of string keys in property insertion order.
- Network effects are parameters: each operation receives the outcome the
  fetch call would produce and returns, besides the result envelope, the
  request body it sent (none when no request was issued). The nested
  getTimeEntryById lookup made by updateTimeEntry is likewise an explicit
  oracle parameter carrying the start_time and end_time fields of the
  entry it would locate.
- JavaScript numbers are modelled by Int (integral values) and Rat;
  NaN is modelled by Option (none = NaN) at the places it can arise.
- Date parsing and getTime subtraction are modelled by a proleptic
  Gregorian day count; the local-time offset used by the JS engine is
  constant here and cancels in every subtraction the code performs.
-/

/-- A JSON-like JavaScript value. vUndefined models the undefined value,
which is distinct from null. -/
inductive JValue : Type where
  | vNull : JValue
  | vUndefined : JValue
  | vBool : Bool → JValue
  | vInt : Int → JValue
  | vRat : Rat → JValue
  | vStr : String → JValue
  | vArr : List JValue → JValue
  | vObj : List (String × JValue) → JValue

/-- JavaScript truthiness of a value. -/
def JValue.truthy : JValue → Bool
  | .vNull => false
  | .vUndefined => false
  | .vBool b => b
  | .vInt n => decide (n ≠ 0)
  | .vRat q => decide (q ≠ 0)
  | .vStr s => decide (s ≠ "")
  | .vArr _ => true
  | .vObj _ => true

/-- First binding of a key in an association-list object. -/
def lookupJ : List (String × JValue) → String → Option JValue
  | [], _ => none
  | (k, v) :: fs, key => if k = key then some v else lookupJ fs key

/-- JavaScript property read: a missing key yields undefined. -/
def objGetJ (fs : List (String × JValue)) (key : String) : JValue :=
  (lookupJ fs key).getD .vUndefined

/-- JavaScript object-literal write: an existing key keeps its position and
gets the new value, a new key is appended. -/
def objSet : List (String × JValue) → String → JValue → List (String × JValue)
  | [], key, v => [(key, v)]
  | (k, w) :: fs, key, v =>
      if k = key then (key, v) :: fs else (k, w) :: objSet fs key v

/-- Whether an object carries a key. -/
def hasKey (fs : List (String × JValue)) (key : String) : Bool :=
  (lookupJ fs key).isSome

/-- The keys of an object value, in order. -/
def objKeys : JValue → List String
  | .vObj fs => fs.map Prod.fst
  | _ => []

/-- JavaScript (a || b) specialised to the uses in the client. -/
def jsOr (a b : JValue) : JValue := if a.truthy then a else b

/-- Character class [0-9]: code points 48 to 57. -/
def isDigitCh (c : Char) : Bool :=
  decide (48 ≤ c.toNat) && decide (c.toNat ≤ 57)

/-- Value of a decimal digit character. -/
def chVal (c : Char) : Nat := c.toNat - 48

/-- Value of a list of decimal digit characters. -/
def digitsToNat (cs : List Char) : Nat := cs.foldl (fun a c => a * 10 + chVal c) 0

/-- ECMAScript parseInt restricted to an optional sign followed by the
maximal run of decimal digits; none models NaN. Leading-whitespace skipping
and radix prefixes are not exercised by any embedded call site. -/
def jsParseIntChars (cs : List Char) : Option Int :=
  match cs with
  | '-' :: rest =>
      let ds := rest.takeWhile isDigitCh
      if ds.isEmpty then none else some (-(digitsToNat ds : Int))
  | '+' :: rest =>
      let ds := rest.takeWhile isDigitCh
      if ds.isEmpty then none else some ((digitsToNat ds : Int))
  | _ =>
      let ds := cs.takeWhile isDigitCh
      if ds.isEmpty then none else some ((digitsToNat ds : Int))

/-- parseInt applied to a string. -/
def jsParseIntStr (s : String) : Option Int := jsParseIntChars s.toList

/-- String.prototype.split at a separator character; always returns at
least one (possibly empty) group. -/
def splitOnCh (sep : Char) : List Char → List (List Char)
  | [] => [[]]
  | c :: cs =>
      if c = sep then [] :: splitOnCh sep cs
      else
        match splitOnCh sep cs with
        | [] => [[c]]
        | g :: gs => (c :: g) :: gs

/-- String.prototype.substring(0, 5). -/
def strTake5 (s : String) : String := String.mk (s.toList.take 5)

/-- Truthiness of an optional string argument: undefined and the empty
string are falsy. -/
def strOptTruthy : Option String → Bool
  | some s => decide (s ≠ "")
  | none => false

/-- A parsed calendar timestamp (proleptic Gregorian). -/
structure DT where
  year : Nat
  month : Nat
  day : Nat
  hour : Nat
  minute : Nat
  second : Nat
deriving DecidableEq

/-- Days since 1970-01-01 of the Gregorian date y-m-d (the standard civil
day-count algorithm, mirroring the day arithmetic of Date.getTime). -/
def daysFromCivil (y : Int) (m d : Nat) : Int :=
  let y2 : Int := if m ≤ 2 then y - 1 else y
  let era : Int := (if 0 ≤ y2 then y2 else y2 - 399) / 400
  let yoe : Int := y2 - era * 400
  let mp : Int := ((m : Int) + 9) % 12
  let doy : Int := (153 * mp + 2) / 5 + (d : Int) - 1
  let doe : Int := yoe * 365 + yoe / 4 - yoe / 100 + doy
  era * 146097 + doe - 719468

/-- Seconds since the epoch of a parsed timestamp. The engine parses these
strings at a fixed offset, which cancels in every subtraction performed by
the client, so the offset is taken to be zero. -/
def epochSecondsDT (t : DT) : Int :=
  daysFromCivil t.year t.month t.day * 86400 +
    (t.hour : Int) * 3600 + (t.minute : Int) * 60 + (t.second : Int)

/-- Gregorian leap-year test, used to state which day numbers are real
calendar dates. -/
def isLeapYear (y : Nat) : Bool := (y % 4 == 0 && y % 100 != 0) || y % 400 == 0

/-- Number of days of a month, used to state which day numbers are real
calendar dates. -/
def daysInMonth (y m : Nat) : Nat :=
  if m = 2 then (if isLeapYear y then 29 else 28)
  else if m = 4 ∨ m = 6 ∨ m = 9 ∨ m = 11 then 30 else 31

/-- The test of the regular expression in formatDateForAPI
(timecamp-api.ts:31): four digits, dash, two digits, dash, two digits,
space, two digits, colon, two digits. -/
def isMinutePrecisionChars : List Char → Bool
  | [y1, y2, y3, y4, s1, a1, a2, s2, b1, b2, s3, c1, c2, s4, d1, d2] =>
      s1 == '-' && s2 == '-' && s3 == ' ' && s4 == ':' &&
      isDigitCh y1 && isDigitCh y2 && isDigitCh y3 && isDigitCh y4 &&
      isDigitCh a1 && isDigitCh a2 && isDigitCh b1 && isDigitCh b2 &&
      isDigitCh c1 && isDigitCh c2 && isDigitCh d1 && isDigitCh d2
  | _ => false

/-- formatDateForAPI (timecamp-api.ts:29-35): append ":00" exactly when the
minute-precision pattern matches, otherwise return the input unchanged. -/
def formatDateForAPI (dateTime : String) : String :=
  if isMinutePrecisionChars dateTime.toList then dateTime ++ ":00" else dateTime

/-- Reading of a "YYYY-MM-DD HH:MM:SS" string by the Date constructor,
with the range validation the engine applies; any other shape gives an
invalid date (none = NaN), which is the only behaviour the client can
observe after formatDateForAPI. -/
def readFullChars : List Char → Option DT
  | [y1, y2, y3, y4, s1, a1, a2, s2, b1, b2, s3, c1, c2, s4, d1, d2, s5, e1, e2] =>
      if s1 = '-' ∧ s2 = '-' ∧ s3 = ' ' ∧ s4 = ':' ∧ s5 = ':' ∧
         isDigitCh y1 = true ∧ isDigitCh y2 = true ∧ isDigitCh y3 = true ∧ isDigitCh y4 = true ∧
         isDigitCh a1 = true ∧ isDigitCh a2 = true ∧ isDigitCh b1 = true ∧ isDigitCh b2 = true ∧
         isDigitCh c1 = true ∧ isDigitCh c2 = true ∧ isDigitCh d1 = true ∧ isDigitCh d2 = true ∧
         isDigitCh e1 = true ∧ isDigitCh e2 = true then
        let y := digitsToNat [y1, y2, y3, y4]
        let mo := digitsToNat [a1, a2]
        let dd := digitsToNat [b1, b2]
        let hh := digitsToNat [c1, c2]
        let mi := digitsToNat [d1, d2]
        let ss := digitsToNat [e1, e2]
        if 1 ≤ mo ∧ mo ≤ 12 ∧ 1 ≤ dd ∧ dd ≤ 31 ∧ hh ≤ 23 ∧ mi ≤ 59 ∧ ss ≤ 59 then
          some ⟨y, mo, dd, hh, mi, ss⟩
        else none
      else none
  | _ => none

/-- new Date(s) for the strings the client builds. -/
def jsDateParse (s : String) : Option DT := readFullChars s.toList

/-- calculateDuration (timecamp-api.ts:23-27): difference of the two
timestamps in whole seconds; none models the NaN produced by an invalid
date. The getTime difference of these second-precision timestamps is an
exact multiple of 1000, so the floor division by 1000 is exact. -/
def calculateDuration (startTime endTime : String) : Option Int :=
  match jsDateParse startTime, jsDateParse endTime with
  | some a, some b => some (epochSecondsDT b - epochSecondsDT a)
  | _, _ => none

/-- Outcome of one outbound fetch: the parsed JSON of an ok response, or a
non-2xx status with its body text. -/
inductive FetchOutcome : Type where
  | ok : JValue → FetchOutcome
  | httpError : Nat → String → FetchOutcome

/-- The error message built for a non-2xx response. -/
def httpErrorMessage (status : Nat) (text : String) : String :=
  "TimeCamp API request failed with status " ++ toString status ++ ": " ++ text

/-- The JSON body of POST /entries built by createTimeEntry. -/
structure CreateBody where
  get_entries : Nat
  date : String
  start_time : String
  end_time : String
  duration : Option Int
  note : String
  service : String
  task_id : Option String
deriving DecidableEq

/-- Result envelope of createTimeEntry together with the request body it
sent (body = none means no network request was issued). -/
structure CreateOutcome where
  success : Bool
  durationMin : Option Int
  data : Option JValue
  message : Option String
  error : Option String
  body : Option CreateBody

/-- The send phase of createTimeEntry (timecamp-api.ts:48-92): build the
request body, issue the POST, and shape the envelope. -/
def createTimeEntrySend (fromArg toArg noteArg : String) (taskId : Option String)
    (resp : FetchOutcome) (startTime endTime : String) (dur : Option Int) : CreateOutcome :=
  let body : CreateBody :=
    { get_entries := 0
      date := String.mk ((splitOnCh ' ' fromArg.toList).headD [])
      start_time := startTime
      end_time := endTime
      duration := dur
      note := noteArg
      service := "timecamp-mcp"
      task_id := if strOptTruthy taskId then taskId else none }
  match resp with
  | .httpError st txt =>
      { success := false, durationMin := none, data := none, message := none,
        error := some (httpErrorMessage st txt), body := some body }
  | .ok j =>
      let minutes : Option Int := dur.map (fun d => d / 60)
      { success := true, durationMin := minutes, data := some j,
        message := some ("Successfully created time entry from " ++ fromArg ++ " to " ++ toArg
          ++ " (" ++ (match minutes with | some m => toString m | none => "NaN") ++ " minutes)."),
        error := none, body := some body }

/-- createTimeEntry (timecamp-api.ts:37-92). The duration check at line 44
compares against 0; the NaN of an unparseable date fails that comparison
and the code proceeds, which the none branch mirrors. -/
def createTimeEntry (fromArg toArg noteArg : String) (taskId : Option String)
    (resp : FetchOutcome) : CreateOutcome :=
  let startTime := formatDateForAPI fromArg
  let endTime := formatDateForAPI toArg
  match calculateDuration startTime endTime with
  | some d =>
      if d ≤ 0 then
        { success := false, durationMin := none, data := none, message := none,
          error := some "End time must be after start time", body := none }
      else createTimeEntrySend fromArg toArg noteArg taskId resp startTime endTime (some d)
  | none => createTimeEntrySend fromArg toArg noteArg taskId resp startTime endTime none

/-- The keys removed by the destructuring in getTimeEntries
(timecamp-api.ts:119). -/
def droppedEntryKeys : List String :=
  ["task_note", "locked", "addons_external_id", "color", "description",
   "hasEntryLocationHistory", "name", "duration"]

/-- The four keys getTimeEntries writes into every shaped entry
(timecamp-api.ts:125-131). -/
def addedEntryKeys : List String :=
  ["task_name", "duration_seconds", "duration_hours", "note"]

/-- Rounding of a rational to two decimals, modelling
parseFloat((x).toFixed(2)); binary floating-point artefacts of toFixed are
not modelled and no claim constrains this value. -/
def roundTo2 (q : Rat) : Rat := ((round (q * 100) : Int) : Rat) / 100

/-- parseInt(duration) || 0 on the destructured duration property. Arrays
stringify elementwise before parsing; the remote entries never carry array
durations, so that branch is collapsed to the NaN default. -/
def parseIntOr0 : JValue → Int
  | .vInt n => n
  | .vRat q => if 0 ≤ q then ⌊q⌋ else ⌈q⌉
  | .vStr s => (jsParseIntStr s).getD 0
  | _ => 0

/-- The per-entry shaping of getTimeEntries (timecamp-api.ts:118-131):
drop the eight noisy keys, then write task_name, duration_seconds,
duration_hours and note; a key that already existed keeps its position and
is overwritten, new keys are appended in literal order. -/
def processEntry (entry : List (String × JValue)) : List (String × JValue) :=
  let cleanEntry := entry.filter (fun kv => !(droppedEntryKeys.contains kv.1))
  let nameV := objGetJ entry "name"
  let descV := objGetJ entry "description"
  let durationSeconds := parseIntOr0 (objGetJ entry "duration")
  let durationHours := roundTo2 ((durationSeconds : Rat) / 3600)
  objSet (objSet (objSet (objSet cleanEntry
    "task_name" (jsOr nameV (.vStr "")))
    "duration_seconds" (.vInt durationSeconds))
    "duration_hours" (.vRat durationHours))
    "note" (jsOr descV (.vStr ""))

/-- Shaping of one array element. Destructuring null or undefined raises a
TypeError, which the try block of the operation turns into an error
envelope; a primitive destructures to no own properties. -/
def processEntryV : JValue → Except String JValue
  | .vObj fs => .ok (.vObj (processEntry fs))
  | .vNull => .error "TypeError"
  | .vUndefined => .error "TypeError"
  | _ => .ok (.vObj (processEntry []))

/-- Shaping of the whole array, stopping at the first raised TypeError. -/
def mapProcessEntries : List JValue → Except String (List JValue)
  | [] => .ok []
  | x :: xs =>
      match processEntryV x, mapProcessEntries xs with
      | .ok y, .ok ys => .ok (y :: ys)
      | .error e, _ => .error e
      | _, .error e => .error e

/-- Result envelope of the two list-returning operations. -/
structure ListOutcome where
  success : Bool
  data : Option JValue
  message : Option String
  error : Option String

/-- getTimeEntries (timecamp-api.ts:94-145): shape each element when the
body is an array, pass any non-array body through verbatim. -/
def getTimeEntries (fromDate toDate : String) (resp : FetchOutcome) : ListOutcome :=
  match resp with
  | .httpError st txt =>
      { success := false, data := none, message := none,
        error := some (httpErrorMessage st txt) }
  | .ok result =>
      match result with
      | .vArr entries =>
          match mapProcessEntries entries with
          | .ok ys =>
              { success := true, data := some (.vArr ys),
                message := some ("Time entries from " ++ fromDate ++ " to " ++ toDate),
                error := none }
          | .error e =>
              { success := false, data := none, message := none, error := some e }
      | other =>
          { success := true, data := some other,
            message := some ("Time entries from " ++ fromDate ++ " to " ++ toDate),
            error := none }

/-- ToNumber on a string, restricted to an optional sign and decimal
digits with an optional fraction; the empty string converts to 0; none
models NaN. Whitespace trimming and exponents are not exercised here. -/
def readDecimal (cs : List Char) : Option Rat :=
  let intPart := cs.takeWhile isDigitCh
  let rest := cs.dropWhile isDigitCh
  match rest with
  | [] => if intPart.isEmpty then none else some ((digitsToNat intPart : Rat))
  | '.' :: fr =>
      if fr.all isDigitCh ∧ ¬(intPart.isEmpty ∧ fr.isEmpty) then
        some ((digitsToNat intPart : Rat) + (digitsToNat fr : Rat) / ((10 : Rat) ^ fr.length))
      else none
  | _ => none

/-- ToNumber on a string value. -/
def strToNumberQ (s : String) : Option Rat :=
  match s.toList with
  | [] => some 0
  | '-' :: cs => (readDecimal cs).map (fun q => -q)
  | '+' :: cs => readDecimal cs
  | cs => readDecimal cs

/-- The loose comparison (x == 0) used by the archived filter
(timecamp-api.ts:169). An empty array converts through the empty string to
0; a non-empty array would convert through its joined string form, a case
no tasks payload exercises, collapsed here to false. -/
def jsLooseEqZero : JValue → Bool
  | .vInt n => decide (n = 0)
  | .vRat q => decide (q = 0)
  | .vBool b => !b
  | .vNull => false
  | .vUndefined => false
  | .vStr s => match strToNumberQ s with | some q => decide (q = 0) | none => false
  | .vArr [] => true
  | .vArr (_ :: _) => false
  | .vObj _ => false

/-- Property read on a task element. The tasks payload maps ids to
objects; reading a property of null or undefined would raise and is not
modelled. -/
def taskProp (t : JValue) (key : String) : JValue :=
  match t with
  | .vObj fs => objGetJ fs key
  | _ => .vUndefined

/-- The projection of getTasks (timecamp-api.ts:170-176): exactly the five
listed fields, in literal order. -/
def projectTask (t : JValue) : JValue :=
  .vObj [("task_id", taskProp t "task_id"), ("parent_id", taskProp t "parent_id"),
         ("name", taskProp t "name"), ("level", taskProp t "level"),
         ("note", taskProp t "note")]

/-- Filter and projection of getTasks (timecamp-api.ts:168-176). -/
def processTasks (tasks : List JValue) : List JValue :=
  (tasks.filter (fun t => jsLooseEqZero (taskProp t "archived"))).map projectTask

/-- Object.values on the decoded body, in enumeration order. The remote
tasks body is an object keyed by task id; Object.values of null or
undefined raises a TypeError caught by the try block. -/
def jsObjectValues : JValue → Except String (List JValue)
  | .vObj fs => .ok (fs.map Prod.snd)
  | .vArr xs => .ok xs
  | .vNull => .error "TypeError"
  | .vUndefined => .error "TypeError"
  | .vStr s => .ok (s.toList.map (fun c => .vStr (String.mk [c])))
  | _ => .ok []

/-- getTasks (timecamp-api.ts:147-189). -/
def getTasks (resp : FetchOutcome) : ListOutcome :=
  match resp with
  | .httpError st txt =>
      { success := false, data := none, message := none,
        error := some (httpErrorMessage st txt) }
  | .ok result =>
      match jsObjectValues result with
      | .error e => { success := false, data := none, message := none, error := some e }
      | .ok vs =>
          { success := true, data := some (.vArr (processTasks vs)),
            message := some "Successfully fetched TimeCamp projects and tasks (non-archived only)",
            error := none }

/-- Character class [0-5], the leading minute digit of the time pattern:
code points 48 to 53. -/
def isMinuteHighCh (c : Char) : Bool :=
  decide (48 ≤ c.toNat) && decide (c.toNat ≤ 53)

/-- The test of the anchored regular expression
([01]?[0-9]|2[0-3]):[0-5][0-9] of updateTimeEntry (timecamp-api.ts:287):
an optional leading 0 or 1 before a digit, or 2 followed by 0-3, then a
colon and a two-digit minute 00-59. Note the hour may be a single digit. -/
def isValidTimeChars : List Char → Bool
  | [h1, c, m1, m2] =>
      c == ':' && isDigitCh h1 && isMinuteHighCh m1 && isDigitCh m2
  | [h1, h2, c, m1, m2] =>
      c == ':' &&
      ((decide (h1 = '0' ∨ h1 = '1') && isDigitCh h2) ||
        (h1 == '2' && decide (h2 = '0' ∨ h2 = '1' ∨ h2 = '2' ∨ h2 = '3'))) &&
      isMinuteHighCh m1 && isDigitCh m2
  | _ => false

/-- timeRegex.test on a string. -/
def isValidTimeString (s : String) : Bool := isValidTimeChars s.toList

/-- Whether a character list writes a clock time with hour 0-23 and minute
0-59, as H:MM or HH:MM. This is the specification-side reading of the
claimed time format, stated by digit values rather than by the regular
expression of the code. -/
def denotesClockChars : List Char → Bool
  | [h1, c, m1, m2] =>
      c == ':' && isDigitCh h1 && isDigitCh m1 && isDigitCh m2 &&
      decide (chVal m1 * 10 + chVal m2 ≤ 59)
  | [h1, h2, c, m1, m2] =>
      c == ':' && isDigitCh h1 && isDigitCh h2 && isDigitCh m1 && isDigitCh m2 &&
      decide (chVal h1 * 10 + chVal h2 ≤ 23) && decide (chVal m1 * 10 + chVal m2 ≤ 59)
  | _ => false

/-- String form of the clock-time test. -/
def denotesClockTime (s : String) : Bool := denotesClockChars s.toList

/-- The minute-of-day computation of updateTimeEntry
(timecamp-api.ts:330-331): parseInt of the piece before the first colon
times 60 plus parseInt of the piece after it; none models NaN (also the
NaN of a missing second piece). -/
def minutesOfDay (s : String) : Option Int :=
  let parts := (splitOnCh ':' s.toList).map String.mk
  match (parts[0]?).bind jsParseIntStr, (parts[1]?).bind jsParseIntStr with
  | some h, some m => some (h * 60 + m)
  | _, _ => none

/-- Appending of ":00" to a bare HH:MM value (timecamp-api.ts:326-327):
applied when the string contains a colon and splits into exactly two
pieces. -/
def addSecondsIfBare (s : String) : String :=
  if s.toList.contains ':' = true ∧ (splitOnCh ':' s.toList).length = 2
  then s ++ ":00" else s

/-- The JSON body of PUT /entries built by updateTimeEntry. The duration
field distinguishes absent (outer none) from present NaN (inner none,
serialised as null); id and task_id are none when parseInt gave NaN. -/
structure PutBody where
  id : Option Int
  service : String
  start_time : Option String
  end_time : Option String
  duration : Option (Option Int)
  note : Option String
  task_id : Option (Option Int)
deriving DecidableEq

/-- Result envelope of updateTimeEntry, together with whether the nested
getTimeEntryById fetch ran and the body of the PUT request (none when no
PUT was issued). -/
structure UpdateOutcome where
  success : Bool
  durationMin : Option Int
  data : Option JValue
  message : Option String
  error : Option String
  fetchedExisting : Bool
  body : Option PutBody

/-- Outcome of the nested getTimeEntryById call: an error envelope, or the
located entry, represented by its start_time and end_time string fields
(none when the field is absent). -/
inductive FetchEntryOutcome : Type where
  | failure : String → FetchEntryOutcome
  | found : Option String → Option String → FetchEntryOutcome

/-- The note and task_id assignments at the end of updateTimeEntry
(timecamp-api.ts:345-351): note is written whenever it is not undefined,
task_id only when truthy. -/
def applyNoteTask (noteArg taskId : Option String) (b : PutBody) : PutBody :=
  let b1 := match noteArg with
    | some n => { b with note := some n }
    | none => b
  match taskId with
  | some t => if t = "" then b1 else { b1 with task_id := some (jsParseIntStr t) }
  | none => b1

/-- Everything updateTimeEntry does before the PUT (timecamp-api.ts:274-351):
validate formats, resolve a missing side through the oracle, compute the
minute-of-day duration, and build the request body. The error carries
whether the nested fetch had already run. -/
structure BuiltUpdate where
  fetched : Bool
  body : PutBody
  timeUpdated : Bool
  dur : Option Int
  fS : String
  fE : String

def updateBuildBody (entryId : String) (fromArg toArg noteArg taskId : Option String)
    (oracle : FetchEntryOutcome) : Except (Bool × String) BuiltUpdate :=
  let base : PutBody :=
    { id := jsParseIntStr entryId, service := "timecamp-mcp", start_time := none,
      end_time := none, duration := none, note := none, task_id := none }
  if strOptTruthy fromArg || strOptTruthy toArg then
    if strOptTruthy fromArg = true ∧ isValidTimeString (fromArg.getD "") = false then
      .error (false, "Start time format must be HH:MM (e.g., 15:28)")
    else if strOptTruthy toArg = true ∧ isValidTimeString (toArg.getD "") = false then
      .error (false, "End time format must be HH:MM (e.g., 15:28)")
    else
      let resolved : Except (Bool × String) (Bool × Option String × Option String) :=
        if (strOptTruthy fromArg && !strOptTruthy toArg) ||
           (!strOptTruthy fromArg && strOptTruthy toArg) then
          match oracle with
          | .failure e => .error (true, "Could not fetch existing time entry: " ++ e)
          | .found st et =>
              let exSt := st.map strTake5
              let exEt := et.map strTake5
              let pair : Option String × Option String :=
                if !strOptTruthy fromArg && strOptTruthy toArg then (exSt, toArg)
                else if strOptTruthy fromArg && !strOptTruthy toArg then (fromArg, exEt)
                else (fromArg, toArg)
              if strOptTruthy pair.1 = false ∨ strOptTruthy pair.2 = false then
                .error (true, "Could not determine existing start or end time from the current entry")
              else .ok (true, pair.1, pair.2)
        else .ok (false, fromArg, toArg)
      match resolved with
      | .error e => .error e
      | .ok (fetched, fS, fE) =>
          if strOptTruthy fS && strOptTruthy fE then
            let s := fS.getD ""
            let e := fE.getD ""
            let sFmt := addSecondsIfBare s
            let eFmt := addSecondsIfBare e
            let dur : Option Int :=
              match minutesOfDay s, minutesOfDay e with
              | some a, some b => some ((b - a) * 60)
              | _, _ => none
            match dur with
            | some d =>
                if d ≤ 0 then .error (fetched, "End time must be after start time")
                else
                  .ok { fetched := fetched,
                        body := applyNoteTask noteArg taskId
                          { base with start_time := some sFmt, end_time := some eFmt,
                                      duration := some (some d) },
                        timeUpdated := true, dur := some d, fS := s, fE := e }
            | none =>
                .ok { fetched := fetched,
                      body := applyNoteTask noteArg taskId
                        { base with start_time := some sFmt, end_time := some eFmt,
                                    duration := some none },
                      timeUpdated := true, dur := none, fS := s, fE := e }
          else
            .ok { fetched := fetched, body := applyNoteTask noteArg taskId base,
                  timeUpdated := false, dur := none, fS := "", fE := "" }
  else
    .ok { fetched := false, body := applyNoteTask noteArg taskId base,
          timeUpdated := false, dur := none, fS := "", fE := "" }

/-- updateTimeEntry (timecamp-api.ts:271-386). -/
def updateTimeEntry (entryId : String) (fromArg toArg noteArg taskId : Option String)
    (oracle : FetchEntryOutcome) (putResp : FetchOutcome) : UpdateOutcome :=
  match updateBuildBody entryId fromArg toArg noteArg taskId oracle with
  | .error (fetched, msg) =>
      { success := false, durationMin := none, data := none, message := none,
        error := some msg, fetchedExisting := fetched, body := none }
  | .ok built =>
      match putResp with
      | .httpError st txt =>
          { success := false, durationMin := none, data := none, message := none,
            error := some (httpErrorMessage st txt), fetchedExisting := built.fetched,
            body := some built.body }
      | .ok j =>
          let minutes : Option Int :=
            if built.timeUpdated then built.dur.map (fun d => d / 60) else none
          { success := true, durationMin := minutes, data := some j,
            message := some ("Successfully updated time entry ID " ++ entryId ++
              (if built.timeUpdated then
                " with time from " ++ built.fS ++ " to " ++ built.fE ++ " (" ++
                (match built.dur.map (fun d => d / 60) with
                 | some m => toString m
                 | none => "NaN") ++ " minutes)"
              else "") ++ "."),
            error := none, fetchedExisting := built.fetched, body := some built.body }

/-- Removal of the "Bearer " prefix from an Authorization header value,
when present. -/
def stripBearer (s : String) : String :=
  if "Bearer ".toList.isPrefixOf s.toList then String.mk (s.toList.drop 7) else s

/-- The token resolution of app.mount: start from the environment token
(empty when unset), and let a truthy Authorization header override it. -/
def resolveBearerToken (authHeader envToken : Option String) : String :=
  let fromEnv := envToken.getD ""
  match authHeader with
  | some a => if a = "" then fromEnv else stripBearer a
  | none => fromEnv

/-- Outcome of the mount guard: a 401 response with no client operation
invoked, or the token handed to the MCP agent (and so to the API client
constructor). -/
inductive MountOutcome : Type where
  | unauthorized : Nat → String → MountOutcome
  | proceed : String → MountOutcome
deriving DecidableEq

/-- The authentication guard of app.mount on /sse routes. -/
def mountAuth (authHeader envToken : Option String) : MountOutcome :=
  let t := resolveBearerToken authHeader envToken
  if t = "" then .unauthorized 401 "Unauthorized: No bearer token provided"
  else .proceed t

/-- The TimeCampAPI constructor validation (timecamp-api.ts:6-13): an
empty token throws, otherwise the client holds the token. -/
def timeCampApiInit (bearerToken : String) : Except String String :=
  if bearerToken = "" then
    .error "No bearer token provided. Please set the TIMECAMP_TOKEN environment variable or provide Authorization header."
  else .ok bearerToken

/-- Canonical rendering of a two-digit field. -/
def pad2 (n : Nat) : List Char := [Nat.digitChar (n / 10 % 10), Nat.digitChar (n % 10)]

/-- Canonical rendering of a four-digit field. -/
def pad4 (n : Nat) : List Char :=
  [Nat.digitChar (n / 1000 % 10), Nat.digitChar (n / 100 % 10),
   Nat.digitChar (n / 10 % 10), Nat.digitChar (n % 10)]

/-- Canonical rendering of a "YYYY-MM-DD HH:MM" argument from its
components; every string of that form is the rendering of its components. -/
def fmtYmdHm (y mo d h mi : Nat) : String :=
  String.mk (pad4 y ++ '-' :: pad2 mo ++ '-' :: pad2 d ++ ' ' :: pad2 h ++ ':' :: pad2 mi)

/-- The timestamp components named by a "YYYY-MM-DD HH:MM" argument. -/
def minuteDT (y mo d h mi : Nat) : DT := ⟨y, mo, d, h, mi, 0⟩

/-- Shaping of one array element as a total function, for stating what
getTimeEntries returns on an all-object array. -/
def procObjTotal : JValue → JValue
  | .vObj fs => .vObj (processEntry fs)
  | v => v

/-- The specification-side filter of getTasks: keep a task whose archived
flag equals the number 0. -/
def archivedIsZero (t : JValue) : Bool :=
  match taskProp t "archived" with
  | .vInt n => decide (n = 0)
  | _ => false

theorem isDigitCh_digitChar_mod (n : Nat) : isDigitCh (Nat.digitChar (n % 10)) = true := by
  have h : n % 10 < 10 := Nat.mod_lt _ (by omega)
  interval_cases hh : n % 10 <;> decide

theorem chVal_digitChar_mod (n : Nat) : chVal (Nat.digitChar (n % 10)) = n % 10 := by
  have h : n % 10 < 10 := Nat.mod_lt _ (by omega)
  interval_cases hh : n % 10 <;> decide

theorem digitsToNat_two (a b : Char) : digitsToNat [a, b] = chVal a * 10 + chVal b := by
  simp [digitsToNat, List.foldl]

theorem digitsToNat_four (a b c d : Char) :
    digitsToNat [a, b, c, d] = ((chVal a * 10 + chVal b) * 10 + chVal c) * 10 + chVal d := by
  simp [digitsToNat, List.foldl]

theorem isDigitCh_zero : isDigitCh '0' = true := by decide

theorem toList_fmt_full (y mo d h mi : Nat) :
    (fmtYmdHm y mo d h mi ++ ":00").toList =
      [Nat.digitChar (y / 1000 % 10), Nat.digitChar (y / 100 % 10),
       Nat.digitChar (y / 10 % 10), Nat.digitChar (y % 10), '-',
       Nat.digitChar (mo / 10 % 10), Nat.digitChar (mo % 10), '-',
       Nat.digitChar (d / 10 % 10), Nat.digitChar (d % 10), ' ',
       Nat.digitChar (h / 10 % 10), Nat.digitChar (h % 10), ':',
       Nat.digitChar (mi / 10 % 10), Nat.digitChar (mi % 10), ':', '0', '0'] := by
  show (fmtYmdHm y mo d h mi ++ ":00").data = _
  rw [String.data_append]
  simp [fmtYmdHm, pad4, pad2]

theorem jsDateParse_fmt (y mo d h mi : Nat) (hy : y ≤ 9999)
    (hmo1 : 1 ≤ mo) (hmo2 : mo ≤ 12) (hd1 : 1 ≤ d) (hd2 : d ≤ 31)
    (hh : h ≤ 23) (hmi : mi ≤ 59) :
    jsDateParse (fmtYmdHm y mo d h mi ++ ":00") = some (minuteDT y mo d h mi) := by
  rw [jsDateParse, toList_fmt_full]
  simp only [readFullChars]
  rw [if_pos (by simp [isDigitCh_digitChar_mod, isDigitCh_zero])]
  have h00 : digitsToNat ['0', '0'] = 0 := by decide
  simp only [digitsToNat_four, digitsToNat_two, chVal_digitChar_mod, h00]
  split_ifs with hP
  · simp only [Option.some.injEq, minuteDT, DT.mk.injEq]
    have hy1 : y / 100 / 10 = y / 1000 := by rw [Nat.div_div_eq_div_mul]
    have hy2 : y / 10 / 10 = y / 100 := by rw [Nat.div_div_eq_div_mul]
    refine ⟨by omega, by omega, by omega, by omega, by omega, trivial⟩
  · exact absurd ⟨by omega, by omega, by omega, by omega, by omega, by omega, by omega⟩ hP

theorem toList_fmt (y mo d h mi : Nat) :
    (fmtYmdHm y mo d h mi).toList =
      [Nat.digitChar (y / 1000 % 10), Nat.digitChar (y / 100 % 10),
       Nat.digitChar (y / 10 % 10), Nat.digitChar (y % 10), '-',
       Nat.digitChar (mo / 10 % 10), Nat.digitChar (mo % 10), '-',
       Nat.digitChar (d / 10 % 10), Nat.digitChar (d % 10), ' ',
       Nat.digitChar (h / 10 % 10), Nat.digitChar (h % 10), ':',
       Nat.digitChar (mi / 10 % 10), Nat.digitChar (mi % 10)] := by
  simp [fmtYmdHm, pad4, pad2]

theorem formatDateForAPI_fmt (y mo d h mi : Nat) :
    formatDateForAPI (fmtYmdHm y mo d h mi) = fmtYmdHm y mo d h mi ++ ":00" := by
  rw [formatDateForAPI, toList_fmt]
  rw [if_pos]
  simp only [isMinutePrecisionChars]
  simp [isDigitCh_digitChar_mod]

theorem calculateDuration_fmt (y mo d h mi y2 mo2 d2 h2 mi2 : Nat)
    (hy : y ≤ 9999) (hmo1 : 1 ≤ mo) (hmo2 : mo ≤ 12) (hd1 : 1 ≤ d) (hd2 : d ≤ 31)
    (hh : h ≤ 23) (hmi : mi ≤ 59)
    (hy2 : y2 ≤ 9999) (hmo21 : 1 ≤ mo2) (hmo22 : mo2 ≤ 12) (hd21 : 1 ≤ d2) (hd22 : d2 ≤ 31)
    (hh2 : h2 ≤ 23) (hmi2 : mi2 ≤ 59) :
    calculateDuration (formatDateForAPI (fmtYmdHm y mo d h mi))
        (formatDateForAPI (fmtYmdHm y2 mo2 d2 h2 mi2)) =
      some (epochSecondsDT (minuteDT y2 mo2 d2 h2 mi2) - epochSecondsDT (minuteDT y mo d h mi)) := by
  rw [formatDateForAPI_fmt, formatDateForAPI_fmt, calculateDuration,
    jsDateParse_fmt y mo d h mi hy hmo1 hmo2 hd1 hd2 hh hmi,
    jsDateParse_fmt y2 mo2 d2 h2 mi2 hy2 hmo21 hmo22 hd21 hd22 hh2 hmi2]

theorem daysInMonth_le (y m : Nat) : daysInMonth y m ≤ 31 := by
  unfold daysInMonth
  split_ifs <;> omega

/-- C1: for every from and to argument written "YYYY-MM-DD HH:MM" (rendered
canonically from in-range calendar components) with to strictly after from,
createTimeEntry on an ok response succeeds and its returned duration field is
the calendar-aware difference of the two timestamps in seconds divided by 60,
rounded down. -/
theorem createEntry_minute_duration (y mo d h mi y2 mo2 d2 h2 mi2 : Nat)
    (noteArg : String) (taskId : Option String) (j : JValue)
    (hy : y ≤ 9999) (hmo1 : 1 ≤ mo) (hmo2 : mo ≤ 12)
    (hd1 : 1 ≤ d) (hd2 : d ≤ daysInMonth y mo)
    (hh : h ≤ 23) (hmi : mi ≤ 59)
    (hy2 : y2 ≤ 9999) (hmo21 : 1 ≤ mo2) (hmo22 : mo2 ≤ 12)
    (hd21 : 1 ≤ d2) (hd22 : d2 ≤ daysInMonth y2 mo2)
    (hh2 : h2 ≤ 23) (hmi2 : mi2 ≤ 59)
    (hlt : epochSecondsDT (minuteDT y mo d h mi) < epochSecondsDT (minuteDT y2 mo2 d2 h2 mi2)) :
    (createTimeEntry (fmtYmdHm y mo d h mi) (fmtYmdHm y2 mo2 d2 h2 mi2) noteArg taskId
        (.ok j)).success = true ∧
    (createTimeEntry (fmtYmdHm y mo d h mi) (fmtYmdHm y2 mo2 d2 h2 mi2) noteArg taskId
        (.ok j)).durationMin =
      some ((epochSecondsDT (minuteDT y2 mo2 d2 h2 mi2) -
        epochSecondsDT (minuteDT y mo d h mi)) / 60) := by
  have hcd := calculateDuration_fmt y mo d h mi y2 mo2 d2 h2 mi2 hy hmo1 hmo2 hd1
    (le_trans hd2 (daysInMonth_le y mo)) hh hmi hy2 hmo21 hmo22 hd21
    (le_trans hd22 (daysInMonth_le y2 mo2)) hh2 hmi2
  simp only [createTimeEntry, hcd]
  rw [if_neg (by omega)]
  simp [createTimeEntrySend]

/-- C4: for every from and to pair written "YYYY-MM-DD HH:MM" with to at or
before from, createTimeEntry fails with the validation error and sends no
request, whatever the network would have answered. -/
theorem createEntry_rejects_nonpositive (y mo d h mi y2 mo2 d2 h2 mi2 : Nat)
    (noteArg : String) (taskId : Option String) (resp : FetchOutcome)
    (hy : y ≤ 9999) (hmo1 : 1 ≤ mo) (hmo2 : mo ≤ 12)
    (hd1 : 1 ≤ d) (hd2 : d ≤ daysInMonth y mo)
    (hh : h ≤ 23) (hmi : mi ≤ 59)
    (hy2 : y2 ≤ 9999) (hmo21 : 1 ≤ mo2) (hmo22 : mo2 ≤ 12)
    (hd21 : 1 ≤ d2) (hd22 : d2 ≤ daysInMonth y2 mo2)
    (hh2 : h2 ≤ 23) (hmi2 : mi2 ≤ 59)
    (hle : epochSecondsDT (minuteDT y2 mo2 d2 h2 mi2) ≤ epochSecondsDT (minuteDT y mo d h mi)) :
    (createTimeEntry (fmtYmdHm y mo d h mi) (fmtYmdHm y2 mo2 d2 h2 mi2) noteArg taskId
        resp).success = false ∧
    (createTimeEntry (fmtYmdHm y mo d h mi) (fmtYmdHm y2 mo2 d2 h2 mi2) noteArg taskId
        resp).error = some "End time must be after start time" ∧
    (createTimeEntry (fmtYmdHm y mo d h mi) (fmtYmdHm y2 mo2 d2 h2 mi2) noteArg taskId
        resp).body = none := by
  have hcd := calculateDuration_fmt y mo d h mi y2 mo2 d2 h2 mi2 hy hmo1 hmo2 hd1
    (le_trans hd2 (daysInMonth_le y mo)) hh hmi hy2 hmo21 hmo22 hd21
    (le_trans hd22 (daysInMonth_le y2 mo2)) hh2 hmi2
  simp only [createTimeEntry, hcd]
  rw [if_pos (by omega)]
  exact ⟨rfl, rfl, rfl⟩

theorem createEntry_minute_duration_w :
    (createTimeEntry "2025-06-21 09:00" "2025-06-21 09:43" "emails" none
        (.ok .vNull)).success = true ∧
    (createTimeEntry "2025-06-21 09:00" "2025-06-21 09:43" "emails" none
        (.ok .vNull)).durationMin = some 43 := by
  have hf : fmtYmdHm 2025 6 21 9 0 = "2025-06-21 09:00" := by decide
  have ht : fmtYmdHm 2025 6 21 9 43 = "2025-06-21 09:43" := by decide
  have h := createEntry_minute_duration 2025 6 21 9 0 2025 6 21 9 43 "emails" none .vNull
    (by decide) (by decide) (by decide) (by decide) (by decide) (by decide) (by decide)
    (by decide) (by decide) (by decide) (by decide) (by decide) (by decide) (by decide)
    (by decide)
  rw [hf, ht] at h
  have hd : (epochSecondsDT (minuteDT 2025 6 21 9 43) -
      epochSecondsDT (minuteDT 2025 6 21 9 0)) / 60 = 43 := by decide
  rw [hd] at h
  exact h

theorem createEntry_rejects_nonpositive_w :
    (createTimeEntry "2025-06-21 10:00" "2025-06-21 09:00" "emails" none
        (.ok .vNull)).success = false ∧
    (createTimeEntry "2025-06-21 10:00" "2025-06-21 09:00" "emails" none
        (.ok .vNull)).error = some "End time must be after start time" ∧
    (createTimeEntry "2025-06-21 10:00" "2025-06-21 09:00" "emails" none
        (.ok .vNull)).body = none := by
  have hf : fmtYmdHm 2025 6 21 10 0 = "2025-06-21 10:00" := by decide
  have ht : fmtYmdHm 2025 6 21 9 0 = "2025-06-21 09:00" := by decide
  have h := createEntry_rejects_nonpositive 2025 6 21 10 0 2025 6 21 9 0 "emails" none
    (.ok .vNull)
    (by decide) (by decide) (by decide) (by decide) (by decide) (by decide) (by decide)
    (by decide) (by decide) (by decide) (by decide) (by decide) (by decide) (by decide)
    (by decide)
  rw [hf, ht] at h
  exact h

theorem lookupJ_objSet_self (fs : List (String × JValue)) (k : String) (v : JValue) :
    lookupJ (objSet fs k v) k = some v := by
  induction fs with
  | nil => simp [objSet, lookupJ]
  | cons kv fs ih =>
      obtain ⟨k1, w⟩ := kv
      by_cases h : k1 = k
      · simp [objSet, h, lookupJ]
      · simp [objSet, h, lookupJ, ih]

theorem lookupJ_objSet_ne (fs : List (String × JValue)) {k k2 : String} (h : k2 ≠ k)
    (v : JValue) : lookupJ (objSet fs k v) k2 = lookupJ fs k2 := by
  induction fs with
  | nil => simp [objSet, lookupJ, Ne.symm h]
  | cons kv fs ih =>
      obtain ⟨k1, w⟩ := kv
      by_cases h1 : k1 = k
      · subst h1
        simp [objSet, lookupJ, Ne.symm h]
      · simp [objSet, h1, lookupJ, ih]

theorem lookupJ_filter_kept (fs : List (String × JValue)) (bad : List String) {key : String}
    (h : bad.contains key = false) :
    lookupJ (fs.filter (fun kv => !(bad.contains kv.1))) key = lookupJ fs key := by
  have hkey : key ∉ bad := by simpa using h
  induction fs with
  | nil => simp
  | cons kv fs ih =>
      obtain ⟨k1, w⟩ := kv
      simp only [List.elem_eq_mem] at ih ⊢
      by_cases h2 : k1 ∈ bad
      · have h1 : ¬ k1 = key := by rintro rfl; exact hkey h2
        simpa [List.filter, h2, lookupJ, h1] using ih
      · by_cases h3 : k1 = key
        · simp [List.filter, h2, lookupJ, h3, hkey]
        · simpa [List.filter, h2, lookupJ, h3] using ih

theorem lookupJ_filter_dropped (fs : List (String × JValue)) (bad : List String) {key : String}
    (h : bad.contains key = true) :
    lookupJ (fs.filter (fun kv => !(bad.contains kv.1))) key = none := by
  have hkey : key ∈ bad := by simpa using h
  induction fs with
  | nil => simp [lookupJ]
  | cons kv fs ih =>
      obtain ⟨k1, w⟩ := kv
      simp only [List.elem_eq_mem] at ih ⊢
      by_cases h2 : k1 ∈ bad
      · simpa [List.filter, h2] using ih
      · have h1 : ¬ k1 = key := by rintro rfl; exact h2 hkey
        simpa [List.filter, h2, lookupJ, h1] using ih


theorem processEntry_note (fs : List (String × JValue)) :
    lookupJ (processEntry fs) "note" = some (jsOr (objGetJ fs "description") (.vStr "")) := by
  simp only [processEntry]
  rw [lookupJ_objSet_self]

theorem processEntry_duration_hours (fs : List (String × JValue)) :
    lookupJ (processEntry fs) "duration_hours" =
      some (.vRat (roundTo2 ((parseIntOr0 (objGetJ fs "duration") : Rat) / 3600))) := by
  simp only [processEntry]
  rw [lookupJ_objSet_ne _ (by decide), lookupJ_objSet_self]

theorem processEntry_duration_seconds (fs : List (String × JValue)) :
    lookupJ (processEntry fs) "duration_seconds" =
      some (.vInt (parseIntOr0 (objGetJ fs "duration"))) := by
  simp only [processEntry]
  rw [lookupJ_objSet_ne _ (by decide), lookupJ_objSet_ne _ (by decide), lookupJ_objSet_self]

theorem processEntry_task_name (fs : List (String × JValue)) :
    lookupJ (processEntry fs) "task_name" = some (jsOr (objGetJ fs "name") (.vStr "")) := by
  simp only [processEntry]
  rw [lookupJ_objSet_ne _ (by decide), lookupJ_objSet_ne _ (by decide),
    lookupJ_objSet_ne _ (by decide), lookupJ_objSet_self]

theorem processEntry_dropped (fs : List (String × JValue)) {key : String}
    (h : droppedEntryKeys.contains key = true) :
    hasKey (processEntry fs) key = false := by
  have hmem : key ∈ droppedEntryKeys := by simpa using h
  have hne : key ≠ "note" ∧ key ≠ "duration_hours" ∧ key ≠ "duration_seconds" ∧
      key ≠ "task_name" := by
    fin_cases hmem <;> exact ⟨by decide, by decide, by decide, by decide⟩
  obtain ⟨n1, n2, n3, n4⟩ := hne
  simp only [processEntry, hasKey]
  rw [lookupJ_objSet_ne _ n1, lookupJ_objSet_ne _ n2, lookupJ_objSet_ne _ n3,
    lookupJ_objSet_ne _ n4, lookupJ_filter_dropped _ _ h]
  rfl

theorem processEntry_frame (fs : List (String × JValue)) {key : String}
    (hd : droppedEntryKeys.contains key = false)
    (ha : addedEntryKeys.contains key = false) :
    lookupJ (processEntry fs) key = lookupJ fs key := by
  have hmem : key ∉ addedEntryKeys := by simpa using ha
  have n1 : key ≠ "task_name" := by intro hh; exact hmem (by simp [addedEntryKeys, hh])
  have n2 : key ≠ "duration_seconds" := by intro hh; exact hmem (by simp [addedEntryKeys, hh])
  have n3 : key ≠ "duration_hours" := by intro hh; exact hmem (by simp [addedEntryKeys, hh])
  have n4 : key ≠ "note" := by intro hh; exact hmem (by simp [addedEntryKeys, hh])
  simp only [processEntry]
  rw [lookupJ_objSet_ne _ n4, lookupJ_objSet_ne _ n3, lookupJ_objSet_ne _ n2,
    lookupJ_objSet_ne _ n1, lookupJ_filter_kept _ _ hd]

theorem mapProcessEntries_allObj (es : List JValue)
    (h : ∀ x ∈ es, ∃ fs, x = JValue.vObj fs) :
    mapProcessEntries es = .ok (es.map procObjTotal) := by
  induction es with
  | nil => rfl
  | cons x xs ih =>
      obtain ⟨fs, rfl⟩ := h x (by simp)
      have hres := ih (fun y hy => h y (by simp [hy]))
      simp [mapProcessEntries, processEntryV, procObjTotal, hres]

/-- C2: on an array of objects from the remote service, getTimeEntries
succeeds and shapes every element with processEntry; a shaped entry carries
none of the eight dropped keys, carries the four synthesized keys, maps
description to note and name to task_name (falling back to the empty string
when the original is absent or falsy), derives duration_seconds from the
dropped duration, and leaves the value of every other original key (any key
outside the dropped and synthesized sets) unchanged. -/
theorem listEntries_field_shaping (fromDate toDate : String) (es : List JValue)
    (hobj : ∀ x ∈ es, ∃ fs, x = JValue.vObj fs) :
    (getTimeEntries fromDate toDate (.ok (.vArr es))).success = true ∧
    (getTimeEntries fromDate toDate (.ok (.vArr es))).data =
      some (.vArr (es.map procObjTotal)) ∧
    ∀ fs : List (String × JValue),
      (∀ key ∈ droppedEntryKeys, hasKey (processEntry fs) key = false) ∧
      (∀ key ∈ addedEntryKeys, hasKey (processEntry fs) key = true) ∧
      lookupJ (processEntry fs) "task_name" = some (jsOr (objGetJ fs "name") (.vStr "")) ∧
      lookupJ (processEntry fs) "note" = some (jsOr (objGetJ fs "description") (.vStr "")) ∧
      lookupJ (processEntry fs) "duration_seconds" =
        some (.vInt (parseIntOr0 (objGetJ fs "duration"))) ∧
      (∀ key, droppedEntryKeys.contains key = false → addedEntryKeys.contains key = false →
        lookupJ (processEntry fs) key = lookupJ fs key) := by
  refine ⟨?_, ?_, ?_⟩
  · simp [getTimeEntries, mapProcessEntries_allObj es hobj]
  · simp [getTimeEntries, mapProcessEntries_allObj es hobj]
  · intro fs
    refine ⟨?_, ?_, processEntry_task_name fs, processEntry_note fs,
      processEntry_duration_seconds fs, ?_⟩
    · intro key hk
      exact processEntry_dropped fs (by simpa using hk)
    · intro key hk
      fin_cases hk
      · simp [hasKey, processEntry_task_name]
      · simp [hasKey, processEntry_duration_seconds]
      · simp [hasKey, processEntry_duration_hours]
      · simp [hasKey, processEntry_note]
    · intro key h1 h2
      exact processEntry_frame fs h1 h2

theorem listEntries_field_shaping_w :
    (getTimeEntries "2025-01-01" "2025-01-31"
        (.ok (.vArr [.vObj [("id", .vInt 5), ("name", .vStr "T"),
          ("duration", .vStr "120"), ("description", .vStr "mail")]]))).success = true ∧
    (getTimeEntries "2025-01-01" "2025-01-31"
        (.ok (.vArr [.vObj [("id", .vInt 5), ("name", .vStr "T"),
          ("duration", .vStr "120"), ("description", .vStr "mail")]]))).data =
      some (.vArr ([JValue.vObj [("id", .vInt 5), ("name", .vStr "T"),
          ("duration", .vStr "120"), ("description", .vStr "mail")]].map procObjTotal)) := by
  have h := listEntries_field_shaping "2025-01-01" "2025-01-31"
    [.vObj [("id", .vInt 5), ("name", .vStr "T"),
      ("duration", .vStr "120"), ("description", .vStr "mail")]]
    (by intro x hx; rw [List.mem_singleton] at hx; exact ⟨_, hx⟩)
  exact ⟨h.1, h.2.1⟩

/-- C9: when the decoded body of the entries endpoint is not an array,
getTimeEntries succeeds and returns that body verbatim as data, with no
field dropped, renamed, or added. -/
theorem listEntries_nonarray_passthrough (fromDate toDate : String) (body : JValue)
    (h : ∀ xs, body ≠ JValue.vArr xs) :
    (getTimeEntries fromDate toDate (.ok body)).success = true ∧
    (getTimeEntries fromDate toDate (.ok body)).data = some body := by
  cases body
  case vArr xs => exact absurd rfl (h xs)
  all_goals exact ⟨rfl, rfl⟩

theorem listEntries_nonarray_passthrough_w :
    (getTimeEntries "2025-01-01" "2025-01-31"
        (.ok (.vObj [("message", .vStr "no data")]))).success = true ∧
    (getTimeEntries "2025-01-01" "2025-01-31"
        (.ok (.vObj [("message", .vStr "no data")]))).data =
      some (.vObj [("message", .vStr "no data")]) :=
  listEntries_nonarray_passthrough "2025-01-01" "2025-01-31" _
    (fun _ h => JValue.noConfusion h)

/-- C6: on a tasks object whose values are task objects with integer
archived flags, getTasks succeeds, its data keeps exactly the tasks whose
archived flag is zero, in enumeration order, and every returned task object
carries exactly the keys task_id, parent_id, name, level, note, in that
order. -/
theorem listTasks_filter_project (tasks : List (String × JValue))
    (harch : ∀ kv ∈ tasks, ∃ fsv n, kv.2 = JValue.vObj fsv ∧
      lookupJ fsv "archived" = some (.vInt n)) :
    (getTasks (.ok (.vObj tasks))).success = true ∧
    (getTasks (.ok (.vObj tasks))).data =
      some (.vArr (((tasks.map Prod.snd).filter archivedIsZero).map projectTask)) ∧
    ∀ t, objKeys (projectTask t) = ["task_id", "parent_id", "name", "level", "note"] := by
  refine ⟨rfl, ?_, fun t => rfl⟩
  have hcong : ∀ t ∈ tasks.map Prod.snd,
      jsLooseEqZero (taskProp t "archived") = archivedIsZero t := by
    intro t ht
    rw [List.mem_map] at ht
    obtain ⟨kv, hkv, rfl⟩ := ht
    obtain ⟨fsv, n, he, ha⟩ := harch kv hkv
    rw [he]
    simp [taskProp, objGetJ, ha, jsLooseEqZero, archivedIsZero]
  simp only [getTasks, jsObjectValues, processTasks]
  rw [List.filter_congr hcong]

theorem listTasks_filter_project_w :
    (getTasks (.ok (.vObj
      [("10", .vObj [("task_id", .vInt 10), ("parent_id", .vInt 0), ("name", .vStr "A"),
        ("level", .vInt 1), ("note", .vStr ""), ("archived", .vInt 0)]),
       ("11", .vObj [("task_id", .vInt 11), ("parent_id", .vInt 10), ("name", .vStr "B"),
        ("level", .vInt 2), ("note", .vStr ""), ("archived", .vInt 1)])]))).success = true ∧
    (getTasks (.ok (.vObj
      [("10", .vObj [("task_id", .vInt 10), ("parent_id", .vInt 0), ("name", .vStr "A"),
        ("level", .vInt 1), ("note", .vStr ""), ("archived", .vInt 0)]),
       ("11", .vObj [("task_id", .vInt 11), ("parent_id", .vInt 10), ("name", .vStr "B"),
        ("level", .vInt 2), ("note", .vStr ""), ("archived", .vInt 1)])]))).data =
      some (.vArr ((([("10", JValue.vObj [("task_id", .vInt 10), ("parent_id", .vInt 0),
        ("name", .vStr "A"), ("level", .vInt 1), ("note", .vStr ""), ("archived", .vInt 0)]),
       ("11", JValue.vObj [("task_id", .vInt 11), ("parent_id", .vInt 10), ("name", .vStr "B"),
        ("level", .vInt 2), ("note", .vStr ""), ("archived", .vInt 1)])].map
          Prod.snd).filter archivedIsZero).map projectTask)) := by
  have h := listTasks_filter_project
    [("10", .vObj [("task_id", .vInt 10), ("parent_id", .vInt 0), ("name", .vStr "A"),
      ("level", .vInt 1), ("note", .vStr ""), ("archived", .vInt 0)]),
     ("11", .vObj [("task_id", .vInt 11), ("parent_id", .vInt 10), ("name", .vStr "B"),
      ("level", .vInt 2), ("note", .vStr ""), ("archived", .vInt 1)])]
    (by
      intro kv hkv
      fin_cases hkv
      · exact ⟨_, 0, rfl, rfl⟩
      · exact ⟨_, 1, rfl, rfl⟩)
  exact ⟨h.1, h.2.1⟩

/-- C8: the bearer credential is resolved from a truthy Authorization
header first, else from the configured environment token; with neither
present the mount guard answers 401 Unauthorized and no client operation is
invoked; any token that does proceed is nonempty, so the client constructor
accepts it. -/
theorem credential_resolution :
    (∀ a envT, a ≠ "" → resolveBearerToken (some a) envT = stripBearer a) ∧
    (∀ t, resolveBearerToken none (some t) = t) ∧
    (∀ envT, resolveBearerToken (some "") envT = envT.getD "") ∧
    mountAuth none none = .unauthorized 401 "Unauthorized: No bearer token provided" ∧
    (∀ hAuth envT t, mountAuth hAuth envT = .proceed t → t ≠ "" ∧ timeCampApiInit t = .ok t) := by
  refine ⟨?_, ?_, ?_, rfl, ?_⟩
  · intro a envT ha
    simp [resolveBearerToken, ha]
  · intro t
    rfl
  · intro envT
    rfl
  · intro hAuth envT t hmt
    unfold mountAuth at hmt
    by_cases h0 : resolveBearerToken hAuth envT = ""
    · rw [if_pos h0] at hmt
      exact MountOutcome.noConfusion hmt
    · rw [if_neg h0] at hmt
      injection hmt with hmt2
      subst hmt2
      exact ⟨h0, by simp [timeCampApiInit, h0]⟩

theorem credential_resolution_w :
    resolveBearerToken (some "Bearer abc") (some "envtok") = stripBearer "Bearer abc" ∧
    resolveBearerToken none (some "envtok") = "envtok" ∧
    mountAuth none none = .unauthorized 401 "Unauthorized: No bearer token provided" :=
  ⟨credential_resolution.1 "Bearer abc" (some "envtok") (by decide),
   credential_resolution.2.1 "envtok",
   credential_resolution.2.2.2.1⟩

theorem applyNoteTask_frame (n t : Option String) (b : PutBody) :
    (applyNoteTask n t b).start_time = b.start_time ∧
    (applyNoteTask n t b).end_time = b.end_time ∧
    (applyNoteTask n t b).duration = b.duration ∧
    (applyNoteTask n t b).id = b.id := by
  unfold applyNoteTask
  cases n <;> cases t <;>
    first
      | exact ⟨rfl, rfl, rfl, rfl⟩
      | (rename_i t2; by_cases h : t2 = "" <;> simp [h])

theorem applyNoteTask_note_some (x : String) (t : Option String) (b : PutBody) :
    (applyNoteTask (some x) t b).note = some x := by
  unfold applyNoteTask
  cases t
  · rfl
  · rename_i t2
    by_cases h : t2 = "" <;> simp [h]

theorem applyNoteTask_note_none (t : Option String) (b : PutBody) :
    (applyNoteTask none t b).note = b.note := by
  unfold applyNoteTask
  cases t
  · rfl
  · rename_i t2
    by_cases h : t2 = "" <;> simp [h]

theorem applyNoteTask_task_none (n : Option String) (b : PutBody) :
    (applyNoteTask n none b).task_id = b.task_id := by
  unfold applyNoteTask
  cases n <;> rfl

theorem applyNoteTask_task_empty (n : Option String) (b : PutBody) :
    (applyNoteTask n (some "") b).task_id = b.task_id := by
  unfold applyNoteTask
  cases n <;> rfl

theorem applyNoteTask_task_some (n : Option String) {x : String} (h : x ≠ "") (b : PutBody) :
    (applyNoteTask n (some x) b).task_id = some (jsParseIntStr x) := by
  unfold applyNoteTask
  cases n <;> simp [h]

/-- C5: an updateTimeEntry call with no time arguments sends a payload
without start_time, end_time, or duration; its note field is exactly the
provided note (absent when the caller gave none), and task_id is absent
whenever the caller did not provide one. -/
theorem update_note_only_frame (entryId : String) (noteArg taskId : Option String)
    (oracle : FetchEntryOutcome) (put : FetchOutcome) :
    ∃ b, (updateTimeEntry entryId none none noteArg taskId oracle put).body = some b ∧
      b.start_time = none ∧ b.end_time = none ∧ b.duration = none ∧
      b.note = noteArg ∧ (taskId = none → b.task_id = none) := by
  refine ⟨applyNoteTask noteArg taskId
    { id := jsParseIntStr entryId, service := "timecamp-mcp", start_time := none,
      end_time := none, duration := none, note := none, task_id := none }, ?_, ?_, ?_, ?_, ?_, ?_⟩
  · cases put <;> rfl
  · exact (applyNoteTask_frame noteArg taskId _).1
  · exact (applyNoteTask_frame noteArg taskId _).2.1
  · exact (applyNoteTask_frame noteArg taskId _).2.2.1
  · cases noteArg
    · exact applyNoteTask_note_none taskId _
    · rename_i x
      exact applyNoteTask_note_some x taskId _
  · rintro rfl
    exact applyNoteTask_task_none noteArg _

theorem update_note_only_frame_w :
    ∃ b, (updateTimeEntry "7" none none (some "hello") none
        (.found none none) (.ok .vNull)).body = some b ∧
      b.start_time = none ∧ b.end_time = none ∧ b.duration = none ∧
      b.note = some "hello" ∧ b.task_id = none := by
  obtain ⟨b, h1, h2, h3, h4, h5, h6⟩ :=
    update_note_only_frame "7" (some "hello") none (.found none none) (.ok .vNull)
  exact ⟨b, h1, h2, h3, h4, h5, h6 rfl⟩

theorem updateBuildBody_body_shape (entryId : String)
    (fromArg toArg noteArg taskId : Option String) (oracle : FetchEntryOutcome)
    (built : BuiltUpdate)
    (h : updateBuildBody entryId fromArg toArg noteArg taskId oracle = .ok built) :
    ∃ X : PutBody, built.body = applyNoteTask noteArg taskId X ∧
      X.task_id = none ∧ X.note = none := by
  simp only [updateBuildBody] at h
  repeat' split at h
  all_goals
    first
      | exact Except.noConfusion h
      | (injection h with h2; subst h2; exact ⟨_, rfl, rfl, rfl⟩)

theorem createTimeEntrySend_task_empty (fromArg toArg noteArg : String)
    (resp : FetchOutcome) (startTime endTime : String) (dur : Option Int) (b : CreateBody)
    (hb : (createTimeEntrySend fromArg toArg noteArg (some "") resp
      startTime endTime dur).body = some b) :
    b.task_id = none := by
  unfold createTimeEntrySend at hb
  cases resp <;>
    · injection hb with h2
      subst h2
      rfl

/-- C10: empty strings are treated asymmetrically: a note provided as the
empty string is included in the update payload, while a task_id provided as
the empty string is omitted exactly as if it had not been provided, both in
updateTimeEntry and in createTimeEntry. -/
theorem empty_string_asymmetry :
    (∀ entryId : String, ∀ fromArg toArg : Option String, ∀ oracle put,
      ∀ b : PutBody,
      (updateTimeEntry entryId fromArg toArg (some "") (some "") oracle put).body = some b →
      b.note = some "" ∧ b.task_id = none) ∧
    (∀ fromArg toArg noteArg : String, ∀ resp, ∀ b : CreateBody,
      (createTimeEntry fromArg toArg noteArg (some "") resp).body = some b →
      b.task_id = none) := by
  constructor
  · intro entryId fromArg toArg oracle put b hb
    rw [updateTimeEntry] at hb
    cases hbb : updateBuildBody entryId fromArg toArg (some "") (some "") oracle with
    | error e =>
        obtain ⟨ef, em⟩ := e
        rw [hbb] at hb
        simp at hb
    | ok built =>
        rw [hbb] at hb
        obtain ⟨X, hX, hXt, hXn⟩ :=
          updateBuildBody_body_shape entryId fromArg toArg (some "") (some "") oracle built hbb
        have hb2 : some built.body = some b := by cases put <;> exact hb
        injection hb2 with hb3
        subst hb3
        rw [hX]
        refine ⟨applyNoteTask_note_some "" (some "") X, ?_⟩
        rw [applyNoteTask_task_empty]
        exact hXt
  · intro fromArg toArg noteArg resp b hb
    rw [createTimeEntry] at hb
    cases hcd : calculateDuration (formatDateForAPI fromArg) (formatDateForAPI toArg) with
    | none =>
        rw [hcd] at hb
        exact createTimeEntrySend_task_empty fromArg toArg noteArg resp _ _ none b hb
    | some d =>
        rw [hcd] at hb
        dsimp only at hb
        by_cases hd : d ≤ 0
        · rw [if_pos hd] at hb
          simp at hb
        · rw [if_neg hd] at hb
          exact createTimeEntrySend_task_empty fromArg toArg noteArg resp _ _ (some d) b hb

theorem empty_string_asymmetry_w :
    (∃ b : PutBody,
      (updateTimeEntry "7" none none (some "") (some "") (.found none none)
        (.ok .vNull)).body = some b ∧ b.note = some "" ∧ b.task_id = none) ∧
    (∃ c : CreateBody,
      (createTimeEntry "2025-06-21 09:00" "2025-06-21 10:00" "n" (some "")
        (.ok .vNull)).body = some c ∧ c.task_id = none) := by
  constructor
  · have hb : (updateTimeEntry "7" none none (some "") (some "") (.found none none)
        (.ok .vNull)).body = some (applyNoteTask (some "") (some "")
          { id := jsParseIntStr "7", service := "timecamp-mcp", start_time := none,
            end_time := none, duration := none, note := none, task_id := none }) := rfl
    obtain ⟨h1, h2⟩ := empty_string_asymmetry.1 "7" none none (.found none none)
      (.ok .vNull) _ hb
    exact ⟨_, hb, h1, h2⟩
  · have hc : (createTimeEntry "2025-06-21 09:00" "2025-06-21 10:00" "n" (some "")
        (.ok .vNull)).body ≠ none := by decide
    cases hcb : (createTimeEntry "2025-06-21 09:00" "2025-06-21 10:00" "n" (some "")
        (.ok .vNull)).body with
    | none => exact absurd hcb hc
    | some c =>
        exact ⟨c, rfl, empty_string_asymmetry.2 "2025-06-21 09:00" "2025-06-21 10:00" "n"
          (.ok .vNull) c hcb⟩

theorem valid_implies_denotes {cs : List Char} (h : isValidTimeChars cs = true) :
    denotesClockChars cs = true := by
  rcases cs with _ | ⟨a, _ | ⟨b, _ | ⟨c, _ | ⟨d, _ | ⟨e, _ | ⟨f, rest⟩⟩⟩⟩⟩⟩
  · simp [isValidTimeChars] at h
  · simp [isValidTimeChars] at h
  · simp [isValidTimeChars] at h
  · simp [isValidTimeChars] at h
  · -- four characters: H:MM
    simp only [isValidTimeChars, Bool.and_eq_true, beq_iff_eq] at h
    obtain ⟨⟨⟨hb, ha⟩, hm1⟩, hm2⟩ := h
    subst hb
    have ha2 : 48 ≤ a.toNat ∧ a.toNat ≤ 57 := by simpa [isDigitCh] using ha
    have hc2 : 48 ≤ c.toNat ∧ c.toNat ≤ 53 := by simpa [isMinuteHighCh] using hm1
    have hd2 : 48 ≤ d.toNat ∧ d.toNat ≤ 57 := by simpa [isDigitCh] using hm2
    have hDc : isDigitCh c = true := by simp only [isDigitCh]; simp; omega
    have hDd : isDigitCh d = true := by simp only [isDigitCh]; simp; omega
    have hM : chVal c * 10 + chVal d ≤ 59 := by simp only [chVal]; omega
    simp [denotesClockChars, ha, hDc, hDd, hM]
  · -- five characters: HH:MM
    simp only [isValidTimeChars, Bool.and_eq_true, Bool.or_eq_true, beq_iff_eq,
      decide_eq_true_eq] at h
    obtain ⟨⟨⟨hc, hhr⟩, hm1⟩, hm2⟩ := h
    subst hc
    have hm12 : 48 ≤ d.toNat ∧ d.toNat ≤ 53 := by simpa [isMinuteHighCh] using hm1
    have hm22 : 48 ≤ e.toNat ∧ e.toNat ≤ 57 := by simpa [isDigitCh] using hm2
    have hDd : isDigitCh d = true := by simp only [isDigitCh]; simp; omega
    have hM : chVal d * 10 + chVal e ≤ 59 := by simp only [chVal]; omega
    have hab : (48 ≤ a.toNat ∧ a.toNat ≤ 57) ∧ (48 ≤ b.toNat ∧ b.toNat ≤ 57) ∧
        chVal a * 10 + chVal b ≤ 23 := by
      rcases hhr with ⟨hab, hb⟩ | ⟨ha, hcd⟩
      · have hb2 : 48 ≤ b.toNat ∧ b.toNat ≤ 57 := by simpa [isDigitCh] using hb
        have ha2 : 48 ≤ a.toNat ∧ a.toNat ≤ 49 := by
          rcases hab with rfl | rfl <;> exact ⟨by decide, by decide⟩
        simp only [chVal]
        omega
      · subst ha
        have hc2 : 48 ≤ b.toNat ∧ b.toNat ≤ 51 := by
          rcases hcd with rfl | rfl | rfl | rfl <;> exact ⟨by decide, by decide⟩
        have h2v : ('2').toNat = 50 := by decide
        simp only [chVal]
        omega
    have hDa : isDigitCh a = true := by
      simp only [isDigitCh]
      simp
      exact hab.1
    have hDb : isDigitCh b = true := by
      simp only [isDigitCh]
      simp
      exact hab.2.1
    have hDe : isDigitCh e = true := by simp only [isDigitCh]; simp; omega
    simp [denotesClockChars, hDa, hDb, hDd, hDe, hab.2.2, hM]
  · simp [isValidTimeChars] at h

/-- C7 (amended): for every updateTimeEntry call in which a supplied from
or to is non-empty and does not write a clock time with hour 0-23 and
minute 0-59 (as H:MM or HH:MM; the validator also accepts single-digit
hours), the call fails with a time-format validation error before any
outbound request: no existing-entry fetch runs and no PUT body is built.
An empty-string time argument is instead treated as not supplied. -/
theorem update_rejects_bad_time (entryId s : String)
    (fromArg toArg noteArg taskId : Option String)
    (oracle : FetchEntryOutcome) (put : FetchOutcome)
    (hside : (fromArg = some s ∧ s ≠ "" ∧ denotesClockTime s = false) ∨
             (toArg = some s ∧ s ≠ "" ∧ denotesClockTime s = false)) :
    (updateTimeEntry entryId fromArg toArg noteArg taskId oracle put).success = false ∧
    (updateTimeEntry entryId fromArg toArg noteArg taskId oracle put).body = none ∧
    (updateTimeEntry entryId fromArg toArg noteArg taskId oracle put).fetchedExisting = false ∧
    ((updateTimeEntry entryId fromArg toArg noteArg taskId oracle put).error =
        some "Start time format must be HH:MM (e.g., 15:28)" ∨
     (updateTimeEntry entryId fromArg toArg noteArg taskId oracle put).error =
        some "End time format must be HH:MM (e.g., 15:28)") := by
  have hval : isValidTimeString s = false := by
    cases hv : isValidTimeString s
    · rfl
    · have hden := valid_implies_denotes (by simpa [isValidTimeString] using hv)
      rcases hside with ⟨_, _, h3⟩ | ⟨_, _, h3⟩ <;>
        · simp only [denotesClockTime, String.toList] at h3
          rw [h3] at hden
          cases hden
  have hbb : ∃ msg, (msg = "Start time format must be HH:MM (e.g., 15:28)" ∨
      msg = "End time format must be HH:MM (e.g., 15:28)") ∧
      updateBuildBody entryId fromArg toArg noteArg taskId oracle = .error (false, msg) := by
    rcases hside with ⟨rfl, hne, _⟩ | ⟨rfl, hne, _⟩
    · refine ⟨_, Or.inl rfl, ?_⟩
      have hg : strOptTruthy (some s) = true := by simp [strOptTruthy, hne]
      unfold updateBuildBody
      rw [if_pos (by simp [hg])]
      rw [if_pos ⟨hg, by simpa using hval⟩]
    · by_cases hf : strOptTruthy fromArg = true
      · by_cases hfv : isValidTimeString (fromArg.getD "") = true
        · refine ⟨_, Or.inr rfl, ?_⟩
          have hg : strOptTruthy (some s) = true := by simp [strOptTruthy, hne]
          unfold updateBuildBody
          rw [if_pos (by simp [hf])]
          rw [if_neg (by rintro ⟨_, hx⟩; rw [hfv] at hx; cases hx)]
          rw [if_pos ⟨hg, by simpa using hval⟩]
        · refine ⟨_, Or.inl rfl, ?_⟩
          unfold updateBuildBody
          rw [if_pos (by simp [hf])]
          rw [if_pos ⟨hf, by simpa using hfv⟩]
      · refine ⟨_, Or.inr rfl, ?_⟩
        have hg : strOptTruthy (some s) = true := by simp [strOptTruthy, hne]
        unfold updateBuildBody
        rw [if_pos (by simp [hg])]
        rw [if_neg (by rintro ⟨h1, _⟩; exact hf h1)]
        rw [if_pos ⟨hg, by simpa using hval⟩]
  obtain ⟨msg, hmsg, hbb2⟩ := hbb
  rw [updateTimeEntry, hbb2]
  exact ⟨rfl, rfl, rfl, by simpa using hmsg⟩

theorem update_rejects_bad_time_w :
    (updateTimeEntry "1" (some "25:00") none none none (.found none none)
        (.ok .vNull)).success = false ∧
    (updateTimeEntry "1" (some "25:00") none none none (.found none none)
        (.ok .vNull)).body = none ∧
    (updateTimeEntry "1" (some "25:00") none none none (.found none none)
        (.ok .vNull)).fetchedExisting = false ∧
    ((updateTimeEntry "1" (some "25:00") none none none (.found none none)
        (.ok .vNull)).error = some "Start time format must be HH:MM (e.g., 15:28)" ∨
     (updateTimeEntry "1" (some "25:00") none none none (.found none none)
        (.ok .vNull)).error = some "End time format must be HH:MM (e.g., 15:28)") :=
  update_rejects_bad_time "1" "25:00" (some "25:00") none none none (.found none none)
    (.ok .vNull) (Or.inl ⟨rfl, by decide, by decide⟩)

/-- C7 counterexample to the claim as stated: from supplied as the empty
string matches no HH:MM time, yet the call raises no validation error and
issues the PUT request. -/
theorem update_time_cex :
    (updateTimeEntry "1" (some "") none none none (.found none none)
        (.ok .vNull)).success = true ∧
    (updateTimeEntry "1" (some "") none none none (.found none none)
        (.ok .vNull)).body ≠ none := by
  constructor
  · rfl
  · decide
theorem update_single_sided_to (entryId s ex : String) (noteArg taskId : Option String)
    (et : Option String) (a b : Int)
    (hvalid : isValidTimeString s = true)
    (ha : minutesOfDay (strTake5 ex) = some a) (hb2 : minutesOfDay s = some b)
    (hle : (b - a) * 60 ≤ 0) :
    updateBuildBody entryId none (some s) noteArg taskId (.found (some ex) et) =
      .error (true, "End time must be after start time") := by
  have hs : s ≠ "" := by
    rintro rfl
    rw [show isValidTimeString "" = false from rfl] at hvalid
    cases hvalid
  have hex : strTake5 ex ≠ "" := by
    intro hemp
    rw [hemp, show minutesOfDay "" = none from rfl] at ha
    cases ha
  have hts : strOptTruthy (some s) = true := by simp [strOptTruthy, hs]
  have htx : strOptTruthy (some (strTake5 ex)) = true := by simp [strOptTruthy, hex]
  have htn : strOptTruthy (none : Option String) = false := rfl
  unfold updateBuildBody
  simp only [hts, htn, htx, hvalid, ha, hb2, Option.getD_some, Option.map_some',
    Bool.false_and, Bool.and_false, Bool.true_and, Bool.and_true, Bool.not_true,
    Bool.not_false, Bool.false_or, Bool.or_false, Bool.or_true, Bool.true_or,
    Bool.and_self, Bool.or_self, if_true, if_false]
  simp only [Bool.true_eq_false, Bool.false_eq_true, false_and, and_false, true_and,
    and_true, and_self, or_self, false_or, or_false, if_true, if_false, ite_true, ite_false]
  simp only [hts, htx, Bool.and_self, if_true, ite_true, Option.getD_some, ha, hb2]
  try simp only [Bool.true_eq_false, Bool.false_eq_true, false_and, and_false, true_and,
    and_true, and_self, or_self, false_or, or_false, if_true, if_false, ite_true, ite_false]
  try simp only [hts, htx, Bool.and_self, if_true, ite_true, Option.getD_some, ha, hb2]
  rw [if_pos hle]

theorem update_single_sided_from (entryId s ex : String) (noteArg taskId : Option String)
    (st : Option String) (a b : Int)
    (hvalid : isValidTimeString s = true)
    (ha : minutesOfDay s = some a) (hb2 : minutesOfDay (strTake5 ex) = some b)
    (hle : (b - a) * 60 ≤ 0) :
    updateBuildBody entryId (some s) none noteArg taskId (.found st (some ex)) =
      .error (true, "End time must be after start time") := by
  have hs : s ≠ "" := by
    rintro rfl
    rw [show isValidTimeString "" = false from rfl] at hvalid
    cases hvalid
  have hex : strTake5 ex ≠ "" := by
    intro hemp
    rw [hemp, show minutesOfDay "" = none from rfl] at hb2
    cases hb2
  have hts : strOptTruthy (some s) = true := by simp [strOptTruthy, hs]
  have htx : strOptTruthy (some (strTake5 ex)) = true := by simp [strOptTruthy, hex]
  have htn : strOptTruthy (none : Option String) = false := rfl
  unfold updateBuildBody
  simp only [hts, htn, htx, hvalid, ha, hb2, Option.getD_some, Option.map_some',
    Bool.false_and, Bool.and_false, Bool.true_and, Bool.and_true, Bool.not_true,
    Bool.not_false, Bool.false_or, Bool.or_false, Bool.or_true, Bool.true_or,
    Bool.and_self, Bool.or_self, if_true, if_false]
  simp only [Bool.true_eq_false, Bool.false_eq_true, false_and, and_false, true_and,
    and_true, and_self, or_self, false_or, or_false, if_true, if_false, ite_true, ite_false]
  simp only [hts, htx, Bool.and_self, if_true, ite_true, Option.getD_some, ha, hb2]
  try simp only [Bool.true_eq_false, Bool.false_eq_true, false_and, and_false, true_and,
    and_true, and_self, or_self, false_or, or_false, if_true, if_false, ite_true, ite_false]
  try simp only [hts, htx, Bool.and_self, if_true, ite_true, Option.getD_some, ha, hb2]
  rw [if_pos hle]

/-- C3: when exactly one of from/to is supplied in valid HH:MM form, the
client fetches the existing entry to recover the missing side (taking the
first five characters of its stored time), recomputes the duration in
seconds as (end minutes - start minutes) * 60 by minute-of-day arithmetic,
and when that duration is not positive it fails validation without sending
the update. -/
theorem update_single_sided_claim (entryId s ex : String) (noteArg taskId : Option String)
    (fromArg toArg : Option String) (st et : Option String) (put : FetchOutcome) (a b : Int)
    (hvalid : isValidTimeString s = true)
    (hcase : (fromArg = none ∧ toArg = some s ∧ st = some ex ∧
        minutesOfDay (strTake5 ex) = some a ∧ minutesOfDay s = some b) ∨
      (fromArg = some s ∧ toArg = none ∧ et = some ex ∧
        minutesOfDay s = some a ∧ minutesOfDay (strTake5 ex) = some b))
    (hle : (b - a) * 60 ≤ 0) :
    (updateTimeEntry entryId fromArg toArg noteArg taskId
      (.found st et) put).fetchedExisting = true ∧
    (updateTimeEntry entryId fromArg toArg noteArg taskId (.found st et) put).success = false ∧
    (updateTimeEntry entryId fromArg toArg noteArg taskId (.found st et) put).error =
      some "End time must be after start time" ∧
    (updateTimeEntry entryId fromArg toArg noteArg taskId (.found st et) put).body = none := by
  rcases hcase with ⟨rfl, rfl, rfl, ha, hb2⟩ | ⟨rfl, rfl, rfl, ha, hb2⟩
  · rw [updateTimeEntry,
      update_single_sided_to entryId s ex noteArg taskId et a b hvalid ha hb2 hle]
    exact ⟨rfl, rfl, rfl, rfl⟩
  · rw [updateTimeEntry,
      update_single_sided_from entryId s ex noteArg taskId st a b hvalid ha hb2 hle]
    exact ⟨rfl, rfl, rfl, rfl⟩

theorem update_single_sided_claim_w :
    (updateTimeEntry "1" none (some "08:00") none none
      (.found (some "09:00:00") (some "17:00:00")) (.ok .vNull)).fetchedExisting = true ∧
    (updateTimeEntry "1" none (some "08:00") none none
      (.found (some "09:00:00") (some "17:00:00")) (.ok .vNull)).success = false ∧
    (updateTimeEntry "1" none (some "08:00") none none
      (.found (some "09:00:00") (some "17:00:00")) (.ok .vNull)).error =
        some "End time must be after start time" ∧
    (updateTimeEntry "1" none (some "08:00") none none
      (.found (some "09:00:00") (some "17:00:00")) (.ok .vNull)).body = none :=
  update_single_sided_claim "1" "08:00" "09:00:00" none none none (some "08:00")
    (some "09:00:00") (some "17:00:00") (.ok .vNull) 540 480 (by decide)
    (Or.inl ⟨rfl, rfl, rfl, by decide, by decide⟩) (by decide)
